import Mathlib

/- Shallow embedding of the minigolf core: the Ball state machine (hit, update,
   completeHole, resetBall), the BallControls aim gesture handlers, and the
   Level collision-surface deriver, translated from the TypeScript source.
   Scene-graph raycast results and camera ray unprojection are external
   interfaces; they enter as explicit parameters (a list of raycast
   intersections, a screen-to-world-ray function). -/

noncomputable section

open Classical

structure Vec2 where
  x : ℝ
  y : ℝ

structure Vec3 where
  x : ℝ
  y : ℝ
  z : ℝ

namespace Vec3

/-- three.js Vector3.length. -/
def length (v : Vec3) : ℝ := Real.sqrt (v.x ^ 2 + v.y ^ 2 + v.z ^ 2)

/-- three.js normalize divides by `this.length() || 1`: a zero length falls
back to the divisor 1 (so the zero vector normalizes to itself). -/
def lengthOr1 (v : Vec3) : ℝ := if length v = 0 then 1 else length v

/-- three.js Vector3.normalize. -/
def normalize (v : Vec3) : Vec3 :=
  ⟨v.x / lengthOr1 v, v.y / lengthOr1 v, v.z / lengthOr1 v⟩

/-- three.js Vector3.sub, componentwise. -/
def sub (a b : Vec3) : Vec3 := ⟨a.x - b.x, a.y - b.y, a.z - b.z⟩

end Vec3

/-- One entry of the scene raycast result used by the sink probe in
Ball.update: whether the hit object is the ball mesh itself, whether its
name includes the substring marking course geometry, and the hit distance. -/
structure SceneHit where
  isBallMesh : Bool
  nameIncludesCourse : Bool
  distance : ℝ

/-- Ball.update filters the downward raycast to hits that are not the ball
mesh, whose name marks course geometry, and that are closer than 0.5; the
nudge fires when this filtered list is empty. -/
def probeFindsGround (scene : List SceneHit) : Prop :=
  ∃ i ∈ scene, i.isBallMesh = false ∧ i.nameIncludesCourse = true ∧ i.distance < 0.5

/-- Ball field groundLevel: initialized to 0 and never reassigned. -/
def groundLevel : ℝ := 0

/-- Ball field moveThreshold: initialized to 0.1 and never reassigned. -/
def moveThreshold : ℝ := 0.1

/-- The observable state of the Ball class: physics body position and
velocities, the isMoving and hasCompletedHole flags, the stroke counter and
the configured hole target. -/
structure BallState where
  position : Vec3
  velocity : Vec3
  angularVelocity : Vec3
  isMoving : Bool
  hasCompletedHole : Bool
  strokeCount : ℕ
  holePosition : Option Vec3
  holeRadius : ℝ

namespace Ball

/-- Ball constructor: body at the given position with zero velocities (the
physics body default), flags cleared, stroke count 0, no hole configured yet
(holeRadius field default 0.4). -/
def create (position : Vec3) : BallState :=
  { position := position
    velocity := ⟨0, 0, 0⟩
    angularVelocity := ⟨0, 0, 0⟩
    isMoving := false
    hasCompletedHole := false
    strokeCount := 0
    holePosition := none
    holeRadius := 0.4 }

/-- Ball.setHolePosition. -/
def setHolePosition (b : BallState) (p : Vec3) (radius : ℝ) : BallState :=
  { b with holePosition := some p, holeRadius := radius }

/-- Ball.hit: no-op when isMoving or hasCompletedHole; otherwise increments
the stroke count, sets velocity to (force.x, 0, force.z) with
force = normalize(direction) * power, then overwrites velocity.y with
power * 0.1, and raises isMoving. -/
def hit (b : BallState) (direction : Vec3) (power : ℝ) : BallState :=
  if b.isMoving || b.hasCompletedHole then b
  else
    { b with
      strokeCount := b.strokeCount + 1
      velocity := ⟨(Vec3.normalize direction).x * power, power * 0.1,
                   (Vec3.normalize direction).z * power⟩
      isMoving := true }

/-- Ball.completeHole: guarded on hasCompletedHole; marks the hole completed,
clears isMoving and zeroes both velocities (the DOM completion overlay is
presentation only and is not modeled). -/
def completeHole (b : BallState) : BallState :=
  if b.hasCompletedHole then b
  else
    { b with
      hasCompletedHole := true
      isMoving := false
      velocity := ⟨0, 0, 0⟩
      angularVelocity := ⟨0, 0, 0⟩ }

/-- The isOverHole test in Ball.update: a hole position is configured and the
horizontal distance from the ball to it is below holeRadius. -/
def isOverHole (b : BallState) : Prop :=
  match b.holePosition with
  | none => False
  | some h =>
      Real.sqrt ((b.position.x - h.x) ^ 2 + (b.position.z - h.z) ^ 2) < b.holeRadius

/-- The `speed` local of Ball.update: horizontal speed measured after the
friction factor 0.995 has been applied to velocity.x and velocity.z. -/
def rollSpeed (b : BallState) : ℝ :=
  Real.sqrt ((b.velocity.x * 0.995) ^ 2 + (b.velocity.z * 0.995) ^ 2)

/-- The tail of Ball.update, reached when the ball is not sunk and has not
fallen below ground: the over-hole downward nudge of 0.3, the friction
multiplication by 0.995, the hard stop below speed 0.05 (zeroing horizontal
and angular velocity, keeping velocity.y), and the isMoving drop below
moveThreshold. -/
def updateRoll (scene : List SceneHit) (b : BallState) : BallState :=
  { b with
    position :=
      if isOverHole b ∧ ¬ probeFindsGround scene then
        ⟨b.position.x, b.position.y - 0.3, b.position.z⟩
      else b.position
    velocity :=
      if rollSpeed b < 0.05 then ⟨0, b.velocity.y, 0⟩
      else ⟨b.velocity.x * 0.995, b.velocity.y, b.velocity.z * 0.995⟩
    angularVelocity :=
      if rollSpeed b < 0.05 then ⟨0, 0, 0⟩ else b.angularVelocity
    isMoving :=
      if rollSpeed b < moveThreshold ∧ b.isMoving = true then false
      else b.isMoving }

/-- Ball.update: returns unchanged when hasCompletedHole; completes the hole
when position.y has dropped below groundLevel - 0.1; otherwise runs the
rolling-tick logic. -/
def update (scene : List SceneHit) (b : BallState) : BallState :=
  if b.hasCompletedHole then b
  else if b.position.y < groundLevel - 0.1 then completeHole b
  else updateRoll scene b

/-- Ball.setPosition: moves the body, zeroes both velocities and clears
isMoving. -/
def setPosition (b : BallState) (p : Vec3) : BallState :=
  { b with
    position := p
    velocity := ⟨0, 0, 0⟩
    angularVelocity := ⟨0, 0, 0⟩
    isMoving := false }

/-- Ball.resetBall: clears hasCompletedHole and isMoving, resets the stroke
count, then setPosition to the hardcoded default start (0, 0.5, 5). -/
def resetBall (b : BallState) : BallState :=
  setPosition
    { b with hasCompletedHole := false, isMoving := false, strokeCount := 0 }
    ⟨0, 0.5, 5⟩

/-- Horizontal speed of the ball state, sqrt(vx^2 + vz^2), as computed by
Ball.update before friction. -/
def hspeed (b : BallState) : ℝ :=
  Real.sqrt (b.velocity.x ^ 2 + b.velocity.z ^ 2)

/-- Iterated Ball.update along a per-tick sequence of scene raycast results. -/
def updates (scenes : ℕ → List SceneHit) : ℕ → BallState → BallState
  | 0, b => b
  | n + 1, b => update (scenes n) (updates scenes n b)

end Ball

/-- A world-space ray as produced by the camera unprojection
(raycaster.setFromCamera). -/
structure Ray3 where
  origin : Vec3
  direction : Vec3

/-- Ray3.at (three.js Ray.at): origin + t * direction. -/
def Ray3.at (r : Ray3) (t : ℝ) : Vec3 :=
  ⟨r.origin.x + t * r.direction.x,
   r.origin.y + t * r.direction.y,
   r.origin.z + t * r.direction.z⟩

/-- The observable state of BallControls: the isAiming flag and the two
normalized-device-coordinate drag endpoints (aiming visuals are presentation
only and are not modeled). -/
structure ControlsState where
  isAiming : Bool
  aimStartPosition : Vec2
  aimEndPosition : Vec2

/-- BallControls initial state: not aiming, both drag endpoints at the
Vector2 default (0, 0). -/
def initControls : ControlsState := ⟨false, ⟨0, 0⟩, ⟨0, 0⟩⟩

/-- A DOM mouse event as consumed by BallControls: button index and client
pixel coordinates. -/
structure PointerEvent where
  button : ℤ
  clientX : ℝ
  clientY : ℝ

namespace BallControls

/-- BallControls field maxPower. -/
def maxPower : ℝ := 15

/-- BallControls field minPower (declared in the source and never read). -/
def minPower : ℝ := 1

/-- The screen-to-NDC conversion done in onMouseDown/onMouseMove:
(clientX / innerWidth * 2 - 1, -(clientY / innerHeight) * 2 + 1). -/
def toNDC (winW winH : ℝ) (e : PointerEvent) : Vec2 :=
  ⟨e.clientX / winW * 2 - 1, -(e.clientY / winH) * 2 + 1⟩

/-- two-point distance for Vec2 (three.js Vector2.distanceTo). -/
def dist2 (a b : Vec2) : ℝ :=
  Real.sqrt ((a.x - b.x) ^ 2 + (a.y - b.y) ^ 2)

/-- The direction part of BallControls.calculateShotParameters. The source
calls intersectPlane with the ground plane on both rays but writes the
results into throwaway target vectors that are never read; the values
actually used are the two ray directions. It then computes
normalize(startWorld - endWorld) and afterwards overwrites the y component
with 0. -/
def shotDirection (startRay endRay : Ray3) : Vec3 :=
  ⟨(Vec3.normalize (Vec3.sub startRay.direction endRay.direction)).x, 0,
   (Vec3.normalize (Vec3.sub startRay.direction endRay.direction)).z⟩

/-- The power part of BallControls.calculateShotParameters:
min(dragDistance * maxPower * 2, maxPower). -/
def shotPower (s e : Vec2) : ℝ :=
  min (dist2 s e * maxPower * 2) maxPower

/-- BallControls.calculateShotParameters, with the camera unprojection
(raycaster.setFromCamera) supplied as an external NDC-to-ray function. -/
def calculateShotParameters (cam : Vec2 → Ray3) (c : ControlsState) :
    Vec3 × ℝ :=
  (shotDirection (cam c.aimStartPosition) (cam c.aimEndPosition),
   shotPower c.aimStartPosition c.aimEndPosition)

/-- BallControls.onMouseDown: ignored unless the button is the left one (0)
and the ball is not in motion; otherwise raises isAiming and records the
drag start in NDC. -/
def onMouseDown (winW winH : ℝ) (e : PointerEvent) (ball : BallState)
    (c : ControlsState) : ControlsState :=
  if e.button ≠ 0 ∨ ball.isMoving = true then c
  else { c with isAiming := true, aimStartPosition := toNDC winW winH e }

/-- BallControls.onMouseMove: ignored unless aiming; otherwise records the
current drag position in NDC. -/
def onMouseMove (winW winH : ℝ) (e : PointerEvent) (c : ControlsState) :
    ControlsState :=
  if c.isAiming = false then c
  else { c with aimEndPosition := toNDC winW winH e }

/-- BallControls.onMouseUp: ignored unless aiming and the button is 0;
otherwise drops isAiming, computes the shot parameters, and calls Ball.hit
exactly when the power exceeds 0.1. Returns the new controls and ball. -/
def onMouseUp (cam : Vec2 → Ray3) (e : PointerEvent) (ball : BallState)
    (c : ControlsState) : ControlsState × BallState :=
  if c.isAiming = false ∨ e.button ≠ 0 then (c, ball)
  else if 0.1 < (calculateShotParameters cam { c with isAiming := false }).2 then
    ({ c with isAiming := false },
      Ball.hit ball (calculateShotParameters cam { c with isAiming := false }).1
        (calculateShotParameters cam { c with isAiming := false }).2)
  else ({ c with isAiming := false }, ball)

end BallControls

/-- Modelled from the spec: AimController step 1 of ShotParameters — the
world point obtained by intersecting an unprojected pointer ray with the
ground plane y = 0 (the source discards this value; this definition follows
the spec's words for comparison). A ray parallel to the plane is left at its
origin. -/
def specGroundPoint (r : Ray3) : Vec3 :=
  if r.direction.y = 0 then r.origin
  else Ray3.at r (-r.origin.y / r.direction.y)

/-- Modelled from the spec: AimController step 2 —
direction = normalize(startWorldPoint - currentWorldPoint) of the two
ground-plane intersection points, a unit vector with vanishing vertical
component. -/
def specShotDirection (startRay endRay : Ray3) : Vec3 :=
  Vec3.normalize (Vec3.sub (specGroundPoint startRay) (specGroundPoint endRay))

/-- The geometry of an authored obstacle mesh: either a three.js BoxGeometry
with its width/height/depth parameters, or any other geometry carried by the
size of its world bounding box. -/
inductive MeshGeometry where
  | box (width height depth : ℝ)
  | other (bboxSize : Vec3)

/-- A quaternion as carried by mesh and body transforms. -/
structure Quat4 where
  x : ℝ
  y : ℝ
  z : ℝ
  w : ℝ

/-- The identity quaternion (zero rotation). -/
def Quat4.identity : Quat4 := ⟨0, 0, 0, 1⟩

/-- The data of an authored mesh consumed by the collision deriver. -/
structure MeshData where
  geometry : MeshGeometry
  position : Vec3
  quaternion : Quat4

/-- The static physics body produced by the collision deriver. -/
structure PhysicsBody where
  mass : ℝ
  friction : ℝ
  restitution : ℝ
  halfExtents : Vec3
  position : Vec3
  quaternion : Quat4

namespace Level

/-- Level.createCollisionSurface: a static (mass 0) body with the default
friction 0.4 / restitution 0.8 material; a box shape with half the
BoxGeometry parameters when the geometry is a box, else a box shape with
half the world bounding-box size; position and quaternion copied from the
mesh. -/
def createCollisionSurface (mesh : MeshData) : PhysicsBody :=
  { mass := 0
    friction := 0.4
    restitution := 0.8
    halfExtents :=
      match mesh.geometry with
      | .box w h d => ⟨w / 2, h / 2, d / 2⟩
      | .other s => ⟨s.x / 2, s.y / 2, s.z / 2⟩
    position := mesh.position
    quaternion := mesh.quaternion }

/-- Level1 startPosition. -/
def level1StartPosition : Vec3 := ⟨0, 0.5, 5⟩

/-- Level1 goalPosition. -/
def level1GoalPosition : Vec3 := ⟨0, 0, -5⟩

/-- Level2 startPosition. -/
def level2StartPosition : Vec3 := ⟨-3, 0.5, 4⟩

/-- Level2 goalPosition. -/
def level2GoalPosition : Vec3 := ⟨3, 0, -3⟩

end Level

namespace MinigolfGame

/-- MinigolfGame.createBall: a fresh Ball at the current level's start
position, with the hole target set to the level's goal with radius 0.4. -/
def createBall (start goal : Vec3) : BallState :=
  Ball.setHolePosition (Ball.create start) goal 0.4

end MinigolfGame

/-- The combined BallControls / Ball pair observed by the game loop. -/
structure GameState where
  ball : BallState
  controls : ControlsState

/-- One event of the combined system: the three pointer handlers, a
simulation tick (Ball.update with the tick's raycast scene), an external
physics-world step (which moves the body and changes its velocities but
touches no Ball flags), the retry reset offered once the hole is completed,
and loading a level (which builds a fresh ball at that level's start). -/
inductive GameStep : GameState → GameState → Prop where
  | down (winW winH : ℝ) (e : PointerEvent) (s : GameState) :
      GameStep s ⟨s.ball, BallControls.onMouseDown winW winH e s.ball s.controls⟩
  | move (winW winH : ℝ) (e : PointerEvent) (s : GameState) :
      GameStep s ⟨s.ball, BallControls.onMouseMove winW winH e s.controls⟩
  | up (cam : Vec2 → Ray3) (e : PointerEvent) (s : GameState) :
      GameStep s ⟨(BallControls.onMouseUp cam e s.ball s.controls).2,
                  (BallControls.onMouseUp cam e s.ball s.controls).1⟩
  | tick (scene : List SceneHit) (s : GameState) :
      GameStep s ⟨Ball.update scene s.ball, s.controls⟩
  | physics (p v av : Vec3) (s : GameState) :
      GameStep s ⟨{ s.ball with position := p, velocity := v, angularVelocity := av },
                  s.controls⟩
  | retry (s : GameState) (h : s.ball.hasCompletedHole = true) :
      GameStep s ⟨Ball.resetBall s.ball, s.controls⟩
  | loadLevel (start goal : Vec3) (s : GameState) :
      GameStep s ⟨MinigolfGame.createBall start goal, s.controls⟩

/-- States reachable from a level load with fresh controls. -/
inductive Reachable : GameState → Prop where
  | init (start goal : Vec3) :
      Reachable ⟨MinigolfGame.createBall start goal, initControls⟩
  | step {s t : GameState} : Reachable s → GameStep s t → Reachable t

namespace Ball

lemma hit_of_blocked {b : BallState} (h : (b.isMoving || b.hasCompletedHole) = true)
    (d : Vec3) (p : ℝ) : hit b d p = b := by
  simp [hit, h]

lemma update_sunk {b : BallState} (h : b.hasCompletedHole = true)
    (scene : List SceneHit) : update scene b = b := by
  simp [update, h]

lemma update_fell {b : BallState} (h1 : b.hasCompletedHole = false)
    (h2 : b.position.y < groundLevel - 0.1) (scene : List SceneHit) :
    update scene b = completeHole b := by
  simp [update, h1, h2]

lemma update_roll {b : BallState} (h1 : b.hasCompletedHole = false)
    (h2 : ¬ b.position.y < groundLevel - 0.1) (scene : List SceneHit) :
    update scene b = updateRoll scene b := by
  simp [update, h1, h2]

lemma completeHole_not_sunk {b : BallState} (h : b.hasCompletedHole = false) :
    completeHole b =
      { b with hasCompletedHole := true, isMoving := false,
               velocity := ⟨0, 0, 0⟩, angularVelocity := ⟨0, 0, 0⟩ } := by
  simp [completeHole, h]

end Ball

/-- C1: hitting a ball that is at rest (not in motion and not sunk) with any
direction and power increments the stroke count by exactly 1, sets the
horizontal velocity components to those of normalize(direction) scaled by
power, sets the vertical velocity to power * 0.1, and raises isMoving while
leaving hasCompletedHole false (the InMotion state). -/
theorem hit_from_rest (b : BallState) (direction : Vec3) (power : ℝ)
    (h1 : b.isMoving = false) (h2 : b.hasCompletedHole = false) :
    (Ball.hit b direction power).strokeCount = b.strokeCount + 1 ∧
    (Ball.hit b direction power).velocity.x = (Vec3.normalize direction).x * power ∧
    (Ball.hit b direction power).velocity.z = (Vec3.normalize direction).z * power ∧
    (Ball.hit b direction power).velocity.y = power * 0.1 ∧
    (Ball.hit b direction power).isMoving = true ∧
    (Ball.hit b direction power).hasCompletedHole = false := by
  simp [Ball.hit, h1, h2]

/-- Witness for hit_from_rest at a concrete resting ball. -/
theorem hit_from_rest_witness :
    (Ball.create ⟨0, 0.5, 5⟩).isMoving = false ∧
    (Ball.create ⟨0, 0.5, 5⟩).hasCompletedHole = false ∧
    ((Ball.hit (Ball.create ⟨0, 0.5, 5⟩) ⟨1, 0, 0⟩ 5).strokeCount =
        (Ball.create ⟨0, 0.5, 5⟩).strokeCount + 1 ∧
      (Ball.hit (Ball.create ⟨0, 0.5, 5⟩) ⟨1, 0, 0⟩ 5).velocity.x =
        (Vec3.normalize ⟨1, 0, 0⟩).x * 5 ∧
      (Ball.hit (Ball.create ⟨0, 0.5, 5⟩) ⟨1, 0, 0⟩ 5).velocity.z =
        (Vec3.normalize ⟨1, 0, 0⟩).z * 5 ∧
      (Ball.hit (Ball.create ⟨0, 0.5, 5⟩) ⟨1, 0, 0⟩ 5).velocity.y = 5 * 0.1 ∧
      (Ball.hit (Ball.create ⟨0, 0.5, 5⟩) ⟨1, 0, 0⟩ 5).isMoving = true ∧
      (Ball.hit (Ball.create ⟨0, 0.5, 5⟩) ⟨1, 0, 0⟩ 5).hasCompletedHole = false) :=
  ⟨rfl, rfl, hit_from_rest (Ball.create ⟨0, 0.5, 5⟩) ⟨1, 0, 0⟩ 5 rfl rfl⟩

/-- C2: hitting a ball that is in motion or sunk is a silent no-op (the whole
state is unchanged), a second hit immediately after any hit is always a
no-op, and when the first hit succeeds from rest the stroke count over both
calls increments by exactly 1 (and never by more than 1 in any case). -/
theorem hit_wrong_state_noop (b : BallState) (d1 d2 : Vec3) (p1 p2 : ℝ) :
    (b.isMoving = true ∨ b.hasCompletedHole = true → Ball.hit b d1 p1 = b) ∧
    Ball.hit (Ball.hit b d1 p1) d2 p2 = Ball.hit b d1 p1 ∧
    (Ball.hit (Ball.hit b d1 p1) d2 p2).strokeCount ≤ b.strokeCount + 1 ∧
    (b.isMoving = false → b.hasCompletedHole = false →
      (Ball.hit (Ball.hit b d1 p1) d2 p2).strokeCount = b.strokeCount + 1) := by
  by_cases hm : b.isMoving
  · have hb : ∀ d p, Ball.hit b d p = b := fun d p =>
      Ball.hit_of_blocked (by simp [hm]) d p
    refine ⟨fun _ => hb d1 p1, ?_, ?_, ?_⟩
    · rw [hb d1 p1, hb d2 p2]
    · rw [hb d1 p1, hb d2 p2]; exact Nat.le_succ _
    · intro h1 _; rw [h1] at hm; exact absurd hm (by simp)
  · by_cases hc : b.hasCompletedHole
    · have hb : ∀ d p, Ball.hit b d p = b := fun d p =>
        Ball.hit_of_blocked (by simp [hc]) d p
      refine ⟨fun _ => hb d1 p1, ?_, ?_, ?_⟩
      · rw [hb d1 p1, hb d2 p2]
      · rw [hb d1 p1, hb d2 p2]; exact Nat.le_succ _
      · intro _ h2; rw [h2] at hc; exact absurd hc (by simp)
    · have hm0 : b.isMoving = false := by simpa using hm
      have hc0 : b.hasCompletedHole = false := by simpa using hc
      have hfst : Ball.hit b d1 p1 =
          { b with
            strokeCount := b.strokeCount + 1
            velocity := ⟨(Vec3.normalize d1).x * p1, p1 * 0.1,
                         (Vec3.normalize d1).z * p1⟩
            isMoving := true } := by
        simp [Ball.hit, hm0, hc0]
      have hsnd : Ball.hit (Ball.hit b d1 p1) d2 p2 = Ball.hit b d1 p1 := by
        rw [hfst]; exact Ball.hit_of_blocked (by simp) d2 p2
      refine ⟨?_, hsnd, ?_, fun _ _ => ?_⟩
      · rintro (h | h)
        · exact absurd h (by simp [hm0])
        · exact absurd h (by simp [hc0])
      · rw [hsnd, hfst]
      · rw [hsnd, hfst]

/-- Witness for hit_wrong_state_noop at a concrete in-motion ball. -/
theorem hit_wrong_state_noop_witness :
    ({ Ball.create ⟨0, 0.5, 5⟩ with isMoving := true }.isMoving = true ∨
      { Ball.create ⟨0, 0.5, 5⟩ with isMoving := true }.hasCompletedHole = true) ∧
    Ball.hit { Ball.create ⟨0, 0.5, 5⟩ with isMoving := true } ⟨1, 0, 0⟩ 5 =
      { Ball.create ⟨0, 0.5, 5⟩ with isMoving := true } :=
  ⟨Or.inl rfl,
    (hit_wrong_state_noop { Ball.create ⟨0, 0.5, 5⟩ with isMoving := true }
      ⟨1, 0, 0⟩ ⟨1, 0, 0⟩ 5 5).1 (Or.inl rfl)⟩

/-- C3: a not-yet-sunk ball whose position.y is below groundLevel - 0.1 is,
on the next update, marked sunk with isMoving cleared and both linear and
angular velocity zeroed, its position and stroke count unchanged — with no
condition on its horizontal velocity; and update of an already sunk ball
changes nothing. -/
theorem update_fall_through_sinks (scene : List SceneHit) (b : BallState) :
    (b.hasCompletedHole = false → b.position.y < groundLevel - 0.1 →
      (Ball.update scene b).hasCompletedHole = true ∧
      (Ball.update scene b).isMoving = false ∧
      (Ball.update scene b).velocity = ⟨0, 0, 0⟩ ∧
      (Ball.update scene b).angularVelocity = ⟨0, 0, 0⟩ ∧
      (Ball.update scene b).position = b.position ∧
      (Ball.update scene b).strokeCount = b.strokeCount) ∧
    (b.hasCompletedHole = true → Ball.update scene b = b) := by
  constructor
  · intro h1 h2
    rw [Ball.update_fell h1 h2, Ball.completeHole_not_sunk h1]
    exact ⟨rfl, rfl, rfl, rfl, rfl, rfl⟩
  · intro h
    exact Ball.update_sunk h scene

/-- A concrete moving ball that has fallen below ground level, used as a
witness input. -/
def fallenBall : BallState :=
  { Ball.create ⟨0, -0.2, 5⟩ with velocity := ⟨3, 0, 2⟩, isMoving := true }

/-- Witness for update_fall_through_sinks at a concrete fallen ball with
nonzero horizontal velocity. -/
theorem update_fall_through_sinks_witness :
    (fallenBall.hasCompletedHole = false ∧
      fallenBall.position.y < groundLevel - 0.1) ∧
    ((fallenBall.hasCompletedHole = false →
        fallenBall.position.y < groundLevel - 0.1 →
        (Ball.update [] fallenBall).hasCompletedHole = true ∧
        (Ball.update [] fallenBall).isMoving = false ∧
        (Ball.update [] fallenBall).velocity = ⟨0, 0, 0⟩ ∧
        (Ball.update [] fallenBall).angularVelocity = ⟨0, 0, 0⟩ ∧
        (Ball.update [] fallenBall).position = fallenBall.position ∧
        (Ball.update [] fallenBall).strokeCount = fallenBall.strokeCount) ∧
      (fallenBall.hasCompletedHole = true →
        Ball.update [] fallenBall = fallenBall)) :=
  ⟨⟨rfl, by norm_num [fallenBall, Ball.create, groundLevel]⟩,
    update_fall_through_sinks [] fallenBall⟩

lemma isOverHole_iff (b : BallState) :
    Ball.isOverHole b ↔
      ∃ hp, b.holePosition = some hp ∧
        Real.sqrt ((b.position.x - hp.x) ^ 2 + (b.position.z - hp.z) ^ 2) <
          b.holeRadius := by
  cases hp : b.holePosition <;> simp [Ball.isOverHole, hp]

/-- C4: on an update of a ball that is neither sunk nor below ground, the
position.y is nudged down by exactly 0.3 exactly when a hole target is
configured, the horizontal distance to it is under the capture radius, and
the downward probe finds no course surface within 0.5 below; otherwise the
position is unchanged, the horizontal position never changes, and with no
hole target the position is always unchanged. -/
theorem update_hole_nudge (scene : List SceneHit) (b : BallState)
    (h1 : b.hasCompletedHole = false) (h2 : ¬ b.position.y < groundLevel - 0.1) :
    ((Ball.update scene b).position.y = b.position.y - 0.3 ↔
      (∃ hp, b.holePosition = some hp ∧
        Real.sqrt ((b.position.x - hp.x) ^ 2 + (b.position.z - hp.z) ^ 2) <
          b.holeRadius) ∧
      ¬ probeFindsGround scene) ∧
    (¬ ((∃ hp, b.holePosition = some hp ∧
        Real.sqrt ((b.position.x - hp.x) ^ 2 + (b.position.z - hp.z) ^ 2) <
          b.holeRadius) ∧
        ¬ probeFindsGround scene) →
      (Ball.update scene b).position = b.position) ∧
    (Ball.update scene b).position.x = b.position.x ∧
    (Ball.update scene b).position.z = b.position.z ∧
    (b.holePosition = none → (Ball.update scene b).position = b.position) := by
  rw [Ball.update_roll h1 h2]
  by_cases hcond : Ball.isOverHole b ∧ ¬ probeFindsGround scene
  · have hpos : (Ball.updateRoll scene b).position =
        ⟨b.position.x, b.position.y - 0.3, b.position.z⟩ := by
      simp [Ball.updateRoll, hcond]
    refine ⟨?_, ?_, ?_, ?_, ?_⟩
    · rw [hpos]
      exact iff_of_true rfl ⟨(isOverHole_iff b).mp hcond.1, hcond.2⟩
    · intro hn
      exact absurd ⟨(isOverHole_iff b).mp hcond.1, hcond.2⟩ hn
    · rw [hpos]
    · rw [hpos]
    · intro hnone
      exact absurd hcond.1 (by simp [Ball.isOverHole, hnone])
  · have hpos : (Ball.updateRoll scene b).position = b.position := by
      simp [Ball.updateRoll, hcond]
    refine ⟨?_, fun _ => hpos, by rw [hpos], by rw [hpos], fun _ => hpos⟩
    rw [hpos]
    constructor
    · intro h
      exfalso
      have h3 : (0.3 : ℝ) = 0 := by linarith
      norm_num at h3
    · intro hrhs
      exact absurd ⟨(isOverHole_iff b).mpr hrhs.1, hrhs.2⟩ hcond

/-- A concrete ball hovering over the configured hole with open air below,
used as a witness input. -/
def overHoleBall : BallState :=
  Ball.setHolePosition (Ball.create ⟨0, 0.5, -5⟩) ⟨0, 0, -5⟩ 0.4

/-- Witness for update_hole_nudge: the hovering ball is nudged down by 0.3. -/
theorem update_hole_nudge_witness :
    (overHoleBall.hasCompletedHole = false ∧
      ¬ overHoleBall.position.y < groundLevel - 0.1) ∧
    ((Ball.update [] overHoleBall).position.y = overHoleBall.position.y - 0.3 ↔
      (∃ hp, overHoleBall.holePosition = some hp ∧
        Real.sqrt ((overHoleBall.position.x - hp.x) ^ 2 +
            (overHoleBall.position.z - hp.z) ^ 2) < overHoleBall.holeRadius) ∧
      ¬ probeFindsGround []) ∧
    (¬ ((∃ hp, overHoleBall.holePosition = some hp ∧
        Real.sqrt ((overHoleBall.position.x - hp.x) ^ 2 +
            (overHoleBall.position.z - hp.z) ^ 2) < overHoleBall.holeRadius) ∧
        ¬ probeFindsGround []) →
      (Ball.update [] overHoleBall).position = overHoleBall.position) ∧
    (Ball.update [] overHoleBall).position.x = overHoleBall.position.x ∧
    (Ball.update [] overHoleBall).position.z = overHoleBall.position.z ∧
    (overHoleBall.holePosition = none →
      (Ball.update [] overHoleBall).position = overHoleBall.position) :=
  ⟨⟨rfl, by norm_num [overHoleBall, Ball.setHolePosition, Ball.create, groundLevel]⟩,
    update_hole_nudge [] overHoleBall rfl
      (by norm_num [overHoleBall, Ball.setHolePosition, Ball.create, groundLevel])⟩

namespace Ball

lemma hspeed_nonneg (b : BallState) : 0 ≤ hspeed b := Real.sqrt_nonneg _

lemma rollSpeed_eq (b : BallState) : rollSpeed b = 0.995 * hspeed b := by
  unfold rollSpeed hspeed
  rw [show (b.velocity.x * 0.995) ^ 2 + (b.velocity.z * 0.995) ^ 2 =
      0.995 ^ 2 * (b.velocity.x ^ 2 + b.velocity.z ^ 2) by ring]
  rw [Real.sqrt_mul (by positivity) _, Real.sqrt_sq (by norm_num)]

lemma updates_succ (scenes : ℕ → List SceneHit) (n : ℕ) (b : BallState) :
    updates scenes (n + 1) b = update (scenes n) (updates scenes n b) := rfl

lemma updateRoll_hasCompletedHole (scene : List SceneHit) (b : BallState) :
    (updateRoll scene b).hasCompletedHole = b.hasCompletedHole := rfl

lemma updateRoll_small {b : BallState} (scene : List SceneHit)
    (h : rollSpeed b < 0.05) :
    hspeed (updateRoll scene b) = 0 ∧ (updateRoll scene b).isMoving = false := by
  have hlt : rollSpeed b < moveThreshold :=
    lt_trans h (by norm_num [moveThreshold])
  constructor
  · simp [hspeed, updateRoll, h]
  · by_cases hm : b.isMoving = true
    · simp [updateRoll, hlt, hm]
    · simp only [Bool.not_eq_true] at hm
      simp [updateRoll, hm]

lemma hspeed_updateRoll_big {b : BallState} (scene : List SceneHit)
    (h : ¬ rollSpeed b < 0.05) :
    hspeed (updateRoll scene b) = 0.995 * hspeed b := by
  have hv : (updateRoll scene b).velocity =
      ⟨b.velocity.x * 0.995, b.velocity.y, b.velocity.z * 0.995⟩ := by
    simp [updateRoll, h]
  unfold hspeed
  rw [hv]
  simpa [rollSpeed] using rollSpeed_eq b

lemma hspeed_completeHole {b : BallState} (h1 : b.hasCompletedHole = false) :
    hspeed (completeHole b) = 0 ∧ (completeHole b).isMoving = false := by
  rw [completeHole_not_sunk h1]
  constructor
  · simp [hspeed]
  · rfl

lemma hspeed_update_le (scene : List SceneHit) (b : BallState) :
    hspeed (update scene b) ≤ hspeed b := by
  by_cases hc : b.hasCompletedHole = true
  · rw [update_sunk hc]
  · have hc0 : b.hasCompletedHole = false := by simpa using hc
    by_cases hfell : b.position.y < groundLevel - 0.1
    · rw [update_fell hc0 hfell, (hspeed_completeHole hc0).1]
      exact hspeed_nonneg b
    · rw [update_roll hc0 hfell]
      by_cases hsmall : rollSpeed b < 0.05
      · rw [(updateRoll_small scene hsmall).1]
        exact hspeed_nonneg b
      · rw [hspeed_updateRoll_big scene hsmall]
        nlinarith [hspeed_nonneg b]

lemma zero_absorbing (scene : List SceneHit) {b : BallState}
    (h0 : hspeed b = 0) (hm : b.isMoving = false) :
    hspeed (update scene b) = 0 ∧ (update scene b).isMoving = false := by
  by_cases hc : b.hasCompletedHole = true
  · rw [update_sunk hc]
    exact ⟨h0, hm⟩
  · have hc0 : b.hasCompletedHole = false := by simpa using hc
    by_cases hfell : b.position.y < groundLevel - 0.1
    · rw [update_fell hc0 hfell]
      exact hspeed_completeHole hc0
    · rw [update_roll hc0 hfell]
      exact updateRoll_small scene (by rw [rollSpeed_eq, h0]; norm_num)

end Ball

/-- C5: with no applied force, each rolling update multiplies the horizontal
velocity by 0.995, zeroes horizontal and angular velocity outright once the
(post-friction) horizontal speed is below 0.05, and clears isMoving once that
speed is below the 0.1 moveThreshold; along any tick sequence the horizontal
speed never increases, and for a not-yet-sunk ball it becomes exactly zero
after a bounded number of ticks with the ball at rest from then on. -/
theorem update_damps_to_rest (scenes : ℕ → List SceneHit) (b : BallState)
    (hb : b.hasCompletedHole = false)
    (hy : ¬ b.position.y < groundLevel - 0.1) :
    (¬ Ball.rollSpeed b < 0.05 →
      (Ball.update (scenes 0) b).velocity.x = b.velocity.x * 0.995 ∧
      (Ball.update (scenes 0) b).velocity.z = b.velocity.z * 0.995) ∧
    (Ball.rollSpeed b < 0.05 →
      (Ball.update (scenes 0) b).velocity.x = 0 ∧
      (Ball.update (scenes 0) b).velocity.z = 0 ∧
      (Ball.update (scenes 0) b).angularVelocity = ⟨0, 0, 0⟩) ∧
    (Ball.rollSpeed b < moveThreshold →
      (Ball.update (scenes 0) b).isMoving = false) ∧
    (∀ n, Ball.hspeed (Ball.updates scenes (n + 1) b) ≤
      Ball.hspeed (Ball.updates scenes n b)) ∧
    (∃ N, ∀ n, N ≤ n →
      Ball.hspeed (Ball.updates scenes n b) = 0 ∧
      (Ball.updates scenes n b).isMoving = false) := by
  have hroll : Ball.update (scenes 0) b = Ball.updateRoll (scenes 0) b :=
    Ball.update_roll hb hy (scenes 0)
  refine ⟨?_, ?_, ?_, ?_, ?_⟩
  · intro h
    rw [hroll]
    constructor <;> simp [Ball.updateRoll, h]
  · intro h
    rw [hroll]
    refine ⟨?_, ?_, ?_⟩ <;> simp [Ball.updateRoll, h]
  · intro h
    rw [hroll]
    by_cases hm : b.isMoving = true
    · simp [Ball.updateRoll, h, hm]
    · simp only [Bool.not_eq_true] at hm
      simp [Ball.updateRoll, hm]
  · intro n
    rw [Ball.updates_succ]
    exact Ball.hspeed_update_le (scenes n) (Ball.updates scenes n b)
  · have propagate : ∀ m,
        (Ball.hspeed (Ball.updates scenes m b) = 0 ∧
          (Ball.updates scenes m b).isMoving = false) →
        ∀ k, m ≤ k →
          Ball.hspeed (Ball.updates scenes k b) = 0 ∧
          (Ball.updates scenes k b).isMoving = false := by
      intro m hm k hk
      induction k, hk using Nat.le_induction with
      | base => exact hm
      | succ k _ ih =>
          rw [Ball.updates_succ]
          exact Ball.zero_absorbing (scenes k) ih.1 ih.2
    have key : ∀ n,
        ((Ball.updates scenes n b).hasCompletedHole = false ∧
          Ball.hspeed (Ball.updates scenes n b) ≤
            0.995 ^ n * Ball.hspeed b) ∨
        (Ball.hspeed (Ball.updates scenes n b) = 0 ∧
          (Ball.updates scenes n b).isMoving = false) := by
      intro n
      induction n with
      | zero => exact Or.inl ⟨hb, by simp [Ball.updates]⟩
      | succ n ih =>
          rcases ih with ⟨hns, hle⟩ | hzero
          · by_cases hfell :
                (Ball.updates scenes n b).position.y < groundLevel - 0.1
            · right
              rw [Ball.updates_succ, Ball.update_fell hns hfell]
              exact Ball.hspeed_completeHole hns
            · rw [Ball.updates_succ, Ball.update_roll hns hfell]
              by_cases hsmall : Ball.rollSpeed (Ball.updates scenes n b) < 0.05
              · exact Or.inr (Ball.updateRoll_small _ hsmall)
              · left
                constructor
                · rw [Ball.updateRoll_hasCompletedHole]
                  exact hns
                · rw [Ball.hspeed_updateRoll_big _ hsmall]
                  have h1 : 0.995 * Ball.hspeed (Ball.updates scenes n b) ≤
                      0.995 * (0.995 ^ n * Ball.hspeed b) := by
                    nlinarith
                  calc 0.995 * Ball.hspeed (Ball.updates scenes n b) ≤
                        0.995 * (0.995 ^ n * Ball.hspeed b) := h1
                    _ = 0.995 ^ (n + 1) * Ball.hspeed b := by ring
          · right
            rw [Ball.updates_succ]
            exact Ball.zero_absorbing (scenes n) hzero.1 hzero.2
    obtain ⟨n0, hn0⟩ : ∃ n0, (0.995 : ℝ) ^ n0 * Ball.hspeed b < 0.05 := by
      by_cases hz : Ball.hspeed b = 0
      · exact ⟨0, by rw [hz]; norm_num⟩
      · have hpos : 0 < Ball.hspeed b :=
          lt_of_le_of_ne (Ball.hspeed_nonneg b) (Ne.symm hz)
        obtain ⟨n0, hn0⟩ := exists_pow_lt_of_lt_one
          (show (0 : ℝ) < 0.05 / (Ball.hspeed b + 1) by positivity)
          (show (0.995 : ℝ) < 1 by norm_num)
        refine ⟨n0, ?_⟩
        have h2 : (0.995 : ℝ) ^ n0 * Ball.hspeed b <
            (0.05 / (Ball.hspeed b + 1)) * Ball.hspeed b :=
          mul_lt_mul_of_pos_right hn0 hpos
        have h3 : (0.05 / (Ball.hspeed b + 1)) * Ball.hspeed b < 0.05 := by
          rw [div_mul_eq_mul_div, div_lt_iff₀ (by positivity)]
          nlinarith
        linarith
    rcases key n0 with ⟨hns, hle⟩ | hzero
    · have hstep :
          Ball.hspeed (Ball.updates scenes (n0 + 1) b) = 0 ∧
          (Ball.updates scenes (n0 + 1) b).isMoving = false := by
        by_cases hfell :
            (Ball.updates scenes n0 b).position.y < groundLevel - 0.1
        · rw [Ball.updates_succ, Ball.update_fell hns hfell]
          exact Ball.hspeed_completeHole hns
        · have hsmall : Ball.rollSpeed (Ball.updates scenes n0 b) < 0.05 := by
            rw [Ball.rollSpeed_eq]
            have h1 : 0.995 * Ball.hspeed (Ball.updates scenes n0 b) ≤
                0.995 * (0.995 ^ n0 * Ball.hspeed b) := by nlinarith
            have h2 : (0.995 : ℝ) * (0.995 ^ n0 * Ball.hspeed b) ≤
                0.995 ^ n0 * Ball.hspeed b := by
              nlinarith [pow_nonneg (show (0:ℝ) ≤ 0.995 by norm_num) n0,
                Ball.hspeed_nonneg b]
            linarith
          rw [Ball.updates_succ, Ball.update_roll hns hfell]
          exact Ball.updateRoll_small _ hsmall
      exact ⟨n0 + 1, fun n hn => propagate (n0 + 1) hstep n hn⟩
    · exact ⟨n0, fun n hn => propagate n0 hzero n hn⟩

/-- A concrete rolling ball used as a witness input for the damping claim. -/
def dampBall : BallState :=
  { Ball.create ⟨0, 0.5, 5⟩ with velocity := ⟨1, 0, 0⟩, isMoving := true }

/-- An empty raycast scene on every tick. -/
def emptyScenes : ℕ → List SceneHit := fun _ => []

/-- Witness for update_damps_to_rest at a concrete rolling ball. -/
theorem update_damps_to_rest_witness :
    (dampBall.hasCompletedHole = false ∧
      ¬ dampBall.position.y < groundLevel - 0.1) ∧
    ((¬ Ball.rollSpeed dampBall < 0.05 →
      (Ball.update (emptyScenes 0) dampBall).velocity.x =
        dampBall.velocity.x * 0.995 ∧
      (Ball.update (emptyScenes 0) dampBall).velocity.z =
        dampBall.velocity.z * 0.995) ∧
    (Ball.rollSpeed dampBall < 0.05 →
      (Ball.update (emptyScenes 0) dampBall).velocity.x = 0 ∧
      (Ball.update (emptyScenes 0) dampBall).velocity.z = 0 ∧
      (Ball.update (emptyScenes 0) dampBall).angularVelocity = ⟨0, 0, 0⟩) ∧
    (Ball.rollSpeed dampBall < moveThreshold →
      (Ball.update (emptyScenes 0) dampBall).isMoving = false) ∧
    (∀ n, Ball.hspeed (Ball.updates emptyScenes (n + 1) dampBall) ≤
      Ball.hspeed (Ball.updates emptyScenes n dampBall)) ∧
    (∃ N, ∀ n, N ≤ n →
      Ball.hspeed (Ball.updates emptyScenes n dampBall) = 0 ∧
      (Ball.updates emptyScenes n dampBall).isMoving = false)) :=
  ⟨⟨rfl, by norm_num [dampBall, Ball.create, groundLevel]⟩,
    update_damps_to_rest emptyScenes dampBall rfl
      (by norm_num [dampBall, Ball.create, groundLevel])⟩

/-- The drag-start pointer ray of a concrete aim gesture (camera at (0,2,0)
looking straight down). -/
def rayA : Ray3 := ⟨⟨0, 2, 0⟩, ⟨0, -1, 0⟩⟩

/-- The current pointer ray of the same gesture (unit direction tilted
toward -z). -/
def rayB : Ray3 := ⟨⟨0, 2, 0⟩, ⟨0, -4/5, -3/5⟩⟩

/-- C6: evaluation of the shot direction at a concrete gesture. The source
computes normalize(startRayDirection - endRayDirection) — the ground-plane
intersection points produced by its intersectPlane calls are discarded — and
zeroes the y component after normalizing, giving (0, 0, (3/5)/sqrt(2/5));
the direction described by the spec (normalized difference of the two
ground-plane points) is (0, 0, 1). The two disagree and the code's result is
not a unit vector (its squared length is 9/10). -/
theorem shot_direction_not_from_ground_points :
    BallControls.shotDirection rayA rayB = ⟨0, 0, (3/5) / Real.sqrt (2/5)⟩ ∧
    specShotDirection rayA rayB = ⟨0, 0, 1⟩ ∧
    BallControls.shotDirection rayA rayB ≠ specShotDirection rayA rayB ∧
    (BallControls.shotDirection rayA rayB).x ^ 2 +
      (BallControls.shotDirection rayA rayB).y ^ 2 +
      (BallControls.shotDirection rayA rayB).z ^ 2 ≠ 1 := by
  have hdiff : Vec3.sub rayA.direction rayB.direction = ⟨0, -1/5, 3/5⟩ := by
    simp [rayA, rayB, Vec3.sub]
    norm_num
  have hlen : Vec3.length ⟨0, -1/5, 3/5⟩ = Real.sqrt (2/5) := by
    unfold Vec3.length
    norm_num
  have hlenpos : (0 : ℝ) < Real.sqrt (2/5) := Real.sqrt_pos.mpr (by norm_num)
  have hor1 : Vec3.lengthOr1 ⟨0, -1/5, 3/5⟩ = Real.sqrt (2/5) := by
    rw [Vec3.lengthOr1, hlen, if_neg (ne_of_gt hlenpos)]
  have hcode : BallControls.shotDirection rayA rayB =
      ⟨0, 0, (3/5) / Real.sqrt (2/5)⟩ := by
    unfold BallControls.shotDirection
    rw [hdiff]
    unfold Vec3.normalize
    rw [hor1]
    simp
  have hga : specGroundPoint rayA = ⟨0, 0, 0⟩ := by
    unfold specGroundPoint
    rw [if_neg (by norm_num [rayA])]
    unfold Ray3.at
    norm_num [rayA]
  have hgb : specGroundPoint rayB = ⟨0, 0, -(3/2)⟩ := by
    unfold specGroundPoint
    rw [if_neg (by norm_num [rayB])]
    unfold Ray3.at
    norm_num [rayB]
  have hspec : specShotDirection rayA rayB = ⟨0, 0, 1⟩ := by
    unfold specShotDirection
    rw [hga, hgb]
    have hsub : Vec3.sub ⟨0, 0, 0⟩ ⟨0, 0, -(3/2)⟩ = ⟨0, 0, 3/2⟩ := by
      unfold Vec3.sub
      norm_num
    rw [hsub]
    have hlen2 : Vec3.length ⟨0, 0, 3/2⟩ = 3/2 := by
      unfold Vec3.length
      rw [show (0:ℝ)^2 + 0^2 + (3/2)^2 = (3/2)^2 by norm_num,
        Real.sqrt_sq (by norm_num)]
    have hor2 : Vec3.lengthOr1 ⟨0, 0, 3/2⟩ = 3/2 := by
      rw [Vec3.lengthOr1, hlen2, if_neg (by norm_num)]
    unfold Vec3.normalize
    rw [hor2]
    norm_num
  have hz2 : ((3/5 : ℝ) / Real.sqrt (2/5)) ^ 2 = 9/10 := by
    rw [div_pow, Real.sq_sqrt (by norm_num)]
    norm_num
  have hzne : ((3/5 : ℝ) / Real.sqrt (2/5)) ≠ 1 := by
    intro h
    have h1 : ((3/5 : ℝ) / Real.sqrt (2/5)) ^ 2 = 1 := by rw [h]; norm_num
    rw [hz2] at h1
    norm_num at h1
  refine ⟨hcode, hspec, ?_, ?_⟩
  · rw [hcode, hspec]
    intro h
    exact hzne (congrArg Vec3.z h)
  · rw [hcode]
    show (0:ℝ) ^ 2 + (0:ℝ) ^ 2 + ((3/5 : ℝ) / Real.sqrt (2/5)) ^ 2 ≠ 1
    rw [hz2]
    norm_num

namespace Ball

lemma update_keeps_stopped {b : BallState} (scene : List SceneHit)
    (hm : b.isMoving = false) : (update scene b).isMoving = false := by
  by_cases hc : b.hasCompletedHole = true
  · rw [update_sunk hc]; exact hm
  · have hc0 : b.hasCompletedHole = false := by simpa using hc
    by_cases hfell : b.position.y < groundLevel - 0.1
    · rw [update_fell hc0 hfell, completeHole_not_sunk hc0]
    · rw [update_roll hc0 hfell]
      simp [updateRoll, hm]

end Ball

lemma onMouseUp_cases (cam : Vec2 → Ray3) (e : PointerEvent) (ball : BallState)
    (c : ControlsState) :
    BallControls.onMouseUp cam e ball c = (c, ball) ∨
    (BallControls.onMouseUp cam e ball c).1.isAiming = false := by
  unfold BallControls.onMouseUp
  by_cases hg : c.isAiming = false ∨ e.button ≠ 0
  · rw [if_pos hg]; exact Or.inl rfl
  · rw [if_neg hg]
    by_cases hp :
        0.1 < (BallControls.calculateShotParameters cam { c with isAiming := false }).2
    · rw [if_pos hp]; exact Or.inr rfl
    · rw [if_neg hp]; exact Or.inr rfl

/-- C7 (amended): in every reachable state of the combined BallControls/Ball
pair, an active aim gesture implies the ball is not in motion (onMouseDown
only guards on isInMotion; it does not check hasCompletedHole, so a sunk —
stationary — ball can be aimed at). -/
theorem aiming_only_when_ball_stopped (s : GameState) (h : Reachable s) :
    s.controls.isAiming = true → s.ball.isMoving = false := by
  induction h with
  | init start goal => intro _; rfl
  | @step u t hr hstep ih =>
    cases hstep with
    | down winW winH e =>
        intro h1
        unfold BallControls.onMouseDown at h1
        by_cases hg : e.button ≠ 0 ∨ u.ball.isMoving = true
        · rw [if_pos hg] at h1
          exact ih h1
        · push_neg at hg
          simpa using hg.2
    | move winW winH e =>
        intro h1
        unfold BallControls.onMouseMove at h1
        by_cases hg : u.controls.isAiming = false
        · rw [if_pos hg] at h1
          exact ih h1
        · rw [if_neg hg] at h1
          exact ih h1
    | up cam e =>
        intro h1
        rcases onMouseUp_cases cam e u.ball u.controls with heq | hfa
        · rw [heq] at h1 ⊢
          exact ih h1
        · rw [hfa] at h1
          cases h1
    | tick scene =>
        intro h1
        exact Ball.update_keeps_stopped scene (ih h1)
    | physics p v av =>
        intro h1
        exact ih h1
    | retry hsunk =>
        intro _
        rfl
    | loadLevel start goal =>
        intro _
        rfl

/-- The freshly loaded level-1 game: ball at the start with the hole set. -/
def cexGame0 : GameState :=
  ⟨MinigolfGame.createBall ⟨0, 0.5, 5⟩ ⟨0, 0, -5⟩, initControls⟩

/-- The game after the physics world has carried the ball below ground
(y = -0.2) at rest. -/
def cexGame1 : GameState :=
  ⟨{ cexGame0.ball with
      position := ⟨0, -0.2, 5⟩
      velocity := ⟨0, 0, 0⟩
      angularVelocity := ⟨0, 0, 0⟩ }, cexGame0.controls⟩

/-- The game after the next tick: the ball has sunk. -/
def cexGame2 : GameState := ⟨Ball.update [] cexGame1.ball, cexGame1.controls⟩

/-- The game after a left-button pointer-down on the sunk ball. -/
def cexGame3 : GameState :=
  ⟨cexGame2.ball,
    BallControls.onMouseDown 800 600 ⟨0, 400, 300⟩ cexGame2.ball cexGame2.controls⟩

lemma cexGame3_reachable : Reachable cexGame3 :=
  Reachable.step
    (Reachable.step
      (Reachable.step (Reachable.init ⟨0, 0.5, 5⟩ ⟨0, 0, -5⟩)
        (GameStep.physics ⟨0, -0.2, 5⟩ ⟨0, 0, 0⟩ ⟨0, 0, 0⟩ cexGame0))
      (GameStep.tick [] cexGame1))
    (GameStep.down 800 600 ⟨0, 400, 300⟩ cexGame2)

lemma cexGame2_ball_eq : cexGame2.ball = Ball.completeHole cexGame1.ball := by
  show Ball.update [] cexGame1.ball = Ball.completeHole cexGame1.ball
  exact Ball.update_fell rfl (by norm_num [cexGame1, groundLevel]) []

lemma cexGame2_ball_sunk :
    cexGame2.ball.isMoving = false ∧ cexGame2.ball.hasCompletedHole = true := by
  rw [cexGame2_ball_eq, Ball.completeHole_not_sunk rfl]
  exact ⟨rfl, rfl⟩

lemma cexGame3_aiming : cexGame3.controls.isAiming = true := by
  show (BallControls.onMouseDown 800 600 ⟨0, 400, 300⟩ cexGame2.ball
      cexGame2.controls).isAiming = true
  unfold BallControls.onMouseDown
  rw [if_neg]
  rintro (h | h)
  · exact h rfl
  · rw [cexGame2_ball_sunk.1] at h
    cases h

/-- C7 counterexample: a reachable state of the combined pair in which the
aim gesture is active while the ball is sunk (not AtRest): after the ball
falls below ground and the tick marks it sunk, a left pointer-down is
accepted because onMouseDown only checks isInMotion. -/
theorem aiming_active_on_sunk_ball :
    Reachable cexGame3 ∧
    cexGame3.controls.isAiming = true ∧
    cexGame3.ball.hasCompletedHole = true :=
  ⟨cexGame3_reachable, cexGame3_aiming, cexGame2_ball_sunk.2⟩

/-- Witness for aiming_only_when_ball_stopped at the concrete reachable
aiming state. -/
theorem aiming_only_when_ball_stopped_witness :
    Reachable cexGame3 ∧ cexGame3.controls.isAiming = true ∧
    cexGame3.ball.isMoving = false :=
  ⟨cexGame3_reachable, cexGame3_aiming,
    aiming_only_when_ball_stopped cexGame3 cexGame3_reachable cexGame3_aiming⟩

/-- C8 (amended): the computed shot power is clamped to [0, maxPower] (the
declared minPower is never consulted), and onMouseUp either leaves the ball
alone or calls hit with a power strictly greater than the 0.1 firing
threshold — which can be below minPower. -/
theorem shot_power_clamped (s e : Vec2) (cam : Vec2 → Ray3)
    (pe : PointerEvent) (ball : BallState) (c : ControlsState) :
    0 ≤ BallControls.shotPower s e ∧
    BallControls.shotPower s e ≤ BallControls.maxPower ∧
    ((BallControls.onMouseUp cam pe ball c).2 = ball ∨
      (0.1 < (BallControls.calculateShotParameters cam
          { c with isAiming := false }).2 ∧
        (BallControls.onMouseUp cam pe ball c).2 =
          Ball.hit ball
            (BallControls.calculateShotParameters cam
              { c with isAiming := false }).1
            (BallControls.calculateShotParameters cam
              { c with isAiming := false }).2)) := by
  refine ⟨?_, ?_, ?_⟩
  · unfold BallControls.shotPower
    apply le_min
    · have h := Real.sqrt_nonneg ((s.x - e.x) ^ 2 + (s.y - e.y) ^ 2)
      unfold BallControls.dist2 BallControls.maxPower
      nlinarith
    · norm_num [BallControls.maxPower]
  · unfold BallControls.shotPower
    exact min_le_right _ _
  · unfold BallControls.onMouseUp
    by_cases hg : c.isAiming = false ∨ pe.button ≠ 0
    · rw [if_pos hg]
      exact Or.inl rfl
    · rw [if_neg hg]
      by_cases hp : 0.1 < (BallControls.calculateShotParameters cam
          { c with isAiming := false }).2
      · rw [if_pos hp]
        exact Or.inr ⟨hp, rfl⟩
      · rw [if_neg hp]
        exact Or.inl rfl

/-- A gesture whose drag distance is 1/60 in NDC. -/
def cexAim : ControlsState := ⟨true, ⟨0, 0⟩, ⟨1/60, 0⟩⟩

/-- An arbitrary fixed camera unprojection. -/
def cexCam : Vec2 → Ray3 := fun _ => ⟨⟨0, 0, 0⟩, ⟨0, 0, -1⟩⟩

/-- A resting ball about to be hit by the gesture. -/
def cexShotBall : BallState := Ball.create ⟨0, 0.5, 5⟩

lemma cex_shotPower : BallControls.shotPower ⟨0, 0⟩ ⟨1/60, 0⟩ = 1/2 := by
  have hdist : BallControls.dist2 ⟨0, 0⟩ ⟨1/60, 0⟩ = 1/60 := by
    unfold BallControls.dist2
    rw [show ((0:ℝ) - 1/60) ^ 2 + ((0:ℝ) - 0) ^ 2 = (1/60) ^ 2 by norm_num]
    exact Real.sqrt_sq (by norm_num)
  unfold BallControls.shotPower BallControls.maxPower
  rw [hdist, min_eq_left (by norm_num)]
  norm_num

/-- C8 counterexample: the gesture with drag distance 1/60 yields power 1/2,
which is strictly below minPower = 1, yet the release fires the shot: the
stroke count increments and the launch uses power 1/2. -/
theorem fired_power_below_minPower :
    BallControls.shotPower ⟨0, 0⟩ ⟨1/60, 0⟩ = 1/2 ∧
    (1/2 : ℝ) < BallControls.minPower ∧
    (BallControls.onMouseUp cexCam ⟨0, 100, 100⟩ cexShotBall cexAim).2.strokeCount
      = 1 ∧
    (BallControls.onMouseUp cexCam ⟨0, 100, 100⟩ cexShotBall cexAim).2.velocity.y
      = 1/2 * 0.1 := by
  have hcalc : (BallControls.calculateShotParameters cexCam
      { cexAim with isAiming := false }).2 = 1/2 := cex_shotPower
  have hg : ¬ (cexAim.isAiming = false ∨ (⟨0, 100, 100⟩ : PointerEvent).button ≠ 0) := by
    rintro (h | h)
    · simp [cexAim] at h
    · exact h rfl
  have hp : (0.1 : ℝ) < (BallControls.calculateShotParameters cexCam
      { cexAim with isAiming := false }).2 := by
    rw [hcalc]
    norm_num
  have hup : BallControls.onMouseUp cexCam ⟨0, 100, 100⟩ cexShotBall cexAim =
      ({ cexAim with isAiming := false },
        Ball.hit cexShotBall
          (BallControls.calculateShotParameters cexCam
            { cexAim with isAiming := false }).1
          (BallControls.calculateShotParameters cexCam
            { cexAim with isAiming := false }).2) := by
    unfold BallControls.onMouseUp
    rw [if_neg hg, if_pos hp]
  refine ⟨cex_shotPower, by norm_num [BallControls.minPower], ?_, ?_⟩
  · rw [hup]
    simp [Ball.hit, cexShotBall, Ball.create]
  · rw [hup]
    simp [Ball.hit, cexShotBall, Ball.create, hcalc]

/-- C9: the derived static collider always exists and carries the mesh's
position and quaternion unchanged; for a box geometry its half-extents are
exactly (width/2, height/2, depth/2), and for any other geometry they are
half the world bounding-box size (the fallback never fails), with mass 0. -/
theorem collision_surface_derivation (m : MeshData) :
    (Level.createCollisionSurface m).position = m.position ∧
    (Level.createCollisionSurface m).quaternion = m.quaternion ∧
    (∀ w h d, m.geometry = MeshGeometry.box w h d →
      (Level.createCollisionSurface m).halfExtents = ⟨w / 2, h / 2, d / 2⟩) ∧
    (∀ s, m.geometry = MeshGeometry.other s →
      (Level.createCollisionSurface m).halfExtents = ⟨s.x / 2, s.y / 2, s.z / 2⟩) ∧
    (Level.createCollisionSurface m).mass = 0 := by
  refine ⟨rfl, rfl, ?_, ?_, rfl⟩
  · intro w h d hg
    simp [Level.createCollisionSurface, hg]
  · intro s hg
    simp [Level.createCollisionSurface, hg]

/-- The box obstacle of the spec's round-trip test: width/height/depth 2
(half-extents (1,1,1)) at position (2,0,2) with zero rotation. -/
def cexMesh : MeshData := ⟨MeshGeometry.box 2 2 2, ⟨2, 0, 2⟩, Quat4.identity⟩

/-- Witness for collision_surface_derivation at the spec's round-trip box. -/
theorem collision_surface_derivation_witness :
    (Level.createCollisionSurface cexMesh).position = ⟨2, 0, 2⟩ ∧
    (Level.createCollisionSurface cexMesh).quaternion = Quat4.identity ∧
    (Level.createCollisionSurface cexMesh).halfExtents = ⟨1, 1, 1⟩ :=
  ⟨(collision_surface_derivation cexMesh).1,
    (collision_surface_derivation cexMesh).2.1,
    by
      have h := (collision_surface_derivation cexMesh).2.2.1 2 2 2 rfl
      rw [h]
      norm_num⟩

/-- C10 (amended): a sunk ball never leaves Sunk through hit or update; the
explicit resetBall leaves it AtRest with both velocities zeroed and stroke
count 0 at the hardcoded default start (0, 0.5, 5) — Level 1's start, not
necessarily the current level's — while a level (re)load creates a fresh
resting ball at that level's start position. -/
theorem sunk_until_reset (b : BallState) (d : Vec3) (p : ℝ)
    (scene : List SceneHit) (start goal : Vec3) :
    (b.hasCompletedHole = true → Ball.hit b d p = b) ∧
    (b.hasCompletedHole = true → Ball.update scene b = b) ∧
    (Ball.resetBall b).hasCompletedHole = false ∧
    (Ball.resetBall b).isMoving = false ∧
    (Ball.resetBall b).velocity = ⟨0, 0, 0⟩ ∧
    (Ball.resetBall b).angularVelocity = ⟨0, 0, 0⟩ ∧
    (Ball.resetBall b).position = ⟨0, 0.5, 5⟩ ∧
    (Ball.resetBall b).strokeCount = 0 ∧
    (MinigolfGame.createBall start goal).isMoving = false ∧
    (MinigolfGame.createBall start goal).hasCompletedHole = false ∧
    (MinigolfGame.createBall start goal).velocity = ⟨0, 0, 0⟩ ∧
    (MinigolfGame.createBall start goal).position = start := by
  refine ⟨?_, ?_, rfl, rfl, rfl, rfl, rfl, rfl, rfl, rfl, rfl, rfl⟩
  · intro h
    exact Ball.hit_of_blocked (by simp [h]) d p
  · intro h
    exact Ball.update_sunk h scene

/-- A ball that sank while playing level 2. -/
def cexSunkBall2 : BallState :=
  Ball.completeHole
    (MinigolfGame.createBall Level.level2StartPosition Level.level2GoalPosition)

/-- C10 counterexample: the retry reset of a ball sunk on level 2 places it
at the hardcoded (0, 0.5, 5), which is not level 2's start position
(-3, 0.5, 4). -/
theorem reset_not_at_level_start :
    (Ball.resetBall cexSunkBall2).position = ⟨0, 0.5, 5⟩ ∧
    Level.level2StartPosition = ⟨-3, 0.5, 4⟩ ∧
    (Ball.resetBall cexSunkBall2).position ≠ Level.level2StartPosition := by
  refine ⟨rfl, rfl, ?_⟩
  intro h
  have hx := congrArg Vec3.x h
  norm_num [Ball.resetBall, Ball.setPosition, Level.level2StartPosition] at hx

/-- Witness for sunk_until_reset at the concrete sunk level-2 ball. -/
theorem sunk_until_reset_witness :
    cexSunkBall2.hasCompletedHole = true ∧
    Ball.hit cexSunkBall2 ⟨0, 0, 1⟩ 5 = cexSunkBall2 ∧
    Ball.update [] cexSunkBall2 = cexSunkBall2 ∧
    (Ball.resetBall cexSunkBall2).position = ⟨0, 0.5, 5⟩ :=
  ⟨rfl,
    (sunk_until_reset cexSunkBall2 ⟨0, 0, 1⟩ 5 [] ⟨0, 0, 0⟩ ⟨0, 0, 0⟩).1 rfl,
    (sunk_until_reset cexSunkBall2 ⟨0, 0, 1⟩ 5 [] ⟨0, 0, 0⟩ ⟨0, 0, 0⟩).2.1 rfl,
    (sunk_until_reset cexSunkBall2 ⟨0, 0, 1⟩ 5 [] ⟨0, 0, 0⟩ ⟨0, 0, 0⟩).2.2.2.2.2.2.1⟩

/-- Witness for shot_power_clamped at the concrete gesture. -/
theorem shot_power_clamped_witness :
    0 ≤ BallControls.shotPower ⟨0, 0⟩ ⟨1/60, 0⟩ ∧
    BallControls.shotPower ⟨0, 0⟩ ⟨1/60, 0⟩ ≤ BallControls.maxPower ∧
    ((BallControls.onMouseUp cexCam ⟨0, 100, 100⟩ cexShotBall cexAim).2 =
        cexShotBall ∨
      (0.1 < (BallControls.calculateShotParameters cexCam
          { cexAim with isAiming := false }).2 ∧
        (BallControls.onMouseUp cexCam ⟨0, 100, 100⟩ cexShotBall cexAim).2 =
          Ball.hit cexShotBall
            (BallControls.calculateShotParameters cexCam
              { cexAim with isAiming := false }).1
            (BallControls.calculateShotParameters cexCam
              { cexAim with isAiming := false }).2)) :=
  shot_power_clamped ⟨0, 0⟩ ⟨1/60, 0⟩ cexCam ⟨0, 100, 100⟩ cexShotBall cexAim
